import Mathlib

/-!
Verification of the match-lobby/draft engine and point ledger of the
LoL-withdrawal bot.  The definitions below are a shallow embedding of
`src/cogs/match.py` (class `Game`, the draft/result callbacks and the
admin kick/replace panel) and `src/utils/stats.py` (the JSON-backed
ledger).  Python dictionaries keyed by integers are embedded as
functions `Nat → Option _` (resp. total functions with the
`ensure_user` default), Python lists as `List Nat`, and the
file-backed ledger as explicit state passing of a `Store`.
-/

set_option maxHeartbeats 1000000

/-! ## Ledger: `utils/stats.py` -/

/-- One per-user record of `user_stats.json` (`DEFAULT_USER` in
`utils/stats.py`).  Field names translate the Korean keys:
`join` = 참여, `wins` = 승리, `losses` = 패배, `points` = 포인트,
`exp` = 경험치, `hist` = 히스토리. -/
structure URec where
  join : Nat
  wins : Nat
  losses : Nat
  points : Int
  exp : Nat
  hist : List Nat
  deriving Repr, DecidableEq

/-- `ensure_user` default record. -/
def defaultURec : URec := ⟨0, 0, 0, 0, 0, []⟩

/-- The whole `user_stats.json` store; a missing key reads as the
default record, exactly as `ensure_user` fills it in before use. -/
def Store := Nat → URec

/-- Fresh (empty) stats file. -/
def initStore : Store := fun _ => defaultURec

/-- History cap of `update_result_dual`: keep only the last 200
entries (`rec["히스토리"][-200:]`). -/
def capHist (l : List Nat) : List Nat :=
  if l.length > 200 then l.drop (l.length - 200) else l

/-- Record part of `update_result_dual`: bump participation, the
win/loss counter, and append the outcome to the history. -/
def resultRec (r : URec) (won : Bool) : URec :=
  if won then
    { r with join := r.join + 1, wins := r.wins + 1, hist := capHist (r.hist ++ [1]) }
  else
    { r with join := r.join + 1, losses := r.losses + 1, hist := capHist (r.hist ++ [0]) }

/-- `update_result_dual(user_id, won)` of `utils/stats.py`. -/
def update_result_dual (s : Store) (uid : Nat) (won : Bool) : Store :=
  Function.update s uid (resultRec (s uid) won)

/-- Record part of `add_points`: `max(0, points + amount)`. -/
def creditRec (r : URec) (amount : Int) : URec :=
  { r with points := max 0 (r.points + amount) }

/-- `add_points(user_id, amount)` of `utils/stats.py`; returns the new
balance together with the updated store. -/
def add_points (s : Store) (uid : Nat) (amount : Int) : Int × Store :=
  let r := creditRec (s uid) amount
  (r.points, Function.update s uid r)

/-- `get_points(user_id)` of `utils/stats.py`. -/
def get_points (s : Store) (uid : Nat) : Int :=
  (s uid).points

/-- `spend_points(user_id, amount)` of `utils/stats.py`: non-positive
amounts succeed immediately; otherwise fail on insufficient balance,
else deduct. -/
def spend_points (s : Store) (uid : Nat) (amount : Int) : Bool × Store :=
  if amount ≤ 0 then (true, s)
  else if (s uid).points < amount then (false, s)
  else (true, Function.update s uid { s uid with points := (s uid).points - amount })

/-- A sequence of ledger calls, for the floor-0 invariant. -/
inductive LOp where
  | credit (uid : Nat) (amount : Int)
  | debit (uid : Nat) (amount : Int)

/-- Apply one ledger call, discarding the returned value. -/
def stepLOp (st : Store) (op : LOp) : Store :=
  match op with
  | .credit u a => (add_points st u a).2
  | .debit u a => (spend_points st u a).2

/-- Run a sequence of `add_points`/`spend_points` calls on a store. -/
def runLedgerFrom (s : Store) (ops : List LOp) : Store :=
  ops.foldl stepLOp s

/-- Run a sequence of ledger calls on a fresh stats file. -/
def runLedger (ops : List LOp) : Store := runLedgerFrom initStore ops

/-! ## Match session state: class `Game` of `cogs/match.py` -/

/-- Reward constants of `cogs/match.py`. -/
def WIN_REWARD : Int := 5

/-- Loss-side reward constant of `cogs/match.py`. -/
def LOSE_REWARD : Int := 3

/-- The mutable session state of class `Game`.  `slots` embeds the
dict `{1..10 → user_id or None}` (indices outside 1..10 read `none`),
`user_to_slot` the inverse dict, `teams` is split into its two keys
`team1`/`team2`.  The `available` pool of the draft UI is carried
separately (it is a local list threaded through `send_draft_ui`). -/
@[ext]
structure Game where
  slots : Nat → Option Nat
  user_to_slot : Nat → Option Nat
  waitlist : List Nat
  team_captains : List Nat
  team1 : List Nat
  team2 : List Nat
  pick_order : List Nat
  draft_turn : Nat
  pick_history : List (Nat × Nat)
  finished : Bool

/-- `Game.__init__`: empty slots, empty waitlist, no teams. -/
def initGame : Game where
  slots := fun _ => none
  user_to_slot := fun _ => none
  waitlist := []
  team_captains := []
  team1 := []
  team2 := []
  pick_order := []
  draft_turn := 0
  pick_history := []
  finished := false

/-- `self.teams[t]` (a missing key reads as the empty list; the code
only ever uses keys 1 and 2). -/
def teamGet (g : Game) (t : Nat) : List Nat :=
  if t = 1 then g.team1 else if t = 2 then g.team2 else []

/-- Write `self.teams[t]` (no-op on a key other than 1 or 2). -/
def teamSet (g : Game) (t : Nat) (l : List Nat) : Game :=
  if t = 1 then { g with team1 := l } else if t = 2 then { g with team2 := l } else g

/-- `Game.participants`: the occupants of slots 1..10 in slot order. -/
def participants (g : Game) : List Nat :=
  (List.range' 1 10).filterMap g.slots

/-- `Game.first_free_slot`. -/
def first_free_slot (g : Game) : Option Nat :=
  (List.range' 1 10).find? (fun i => g.slots i = none)

/-- `Game.remove_from_waitlist`: drop the user if queued, reporting
whether a removal happened. -/
def remove_from_waitlist (g : Game) (uid : Nat) : Game × Bool :=
  if uid ∈ g.waitlist then ({ g with waitlist := g.waitlist.erase uid }, true)
  else (g, false)

/-- The slot-vacating block shared by `remove_from_slot` and
`assign_slot`: if the user holds a slot, null that slot and delete the
user from `user_to_slot`. -/
def clearUser (g : Game) (uid : Nat) : Game :=
  match g.user_to_slot uid with
  | some old =>
      { g with slots := Function.update g.slots old none,
               user_to_slot := Function.update g.user_to_slot uid none }
  | none => g

/-- The two seating assignments at the end of `assign_slot`. -/
def seatUser (g : Game) (uid : Nat) (slot_no : Nat) : Game :=
  { g with slots := Function.update g.slots slot_no (some uid),
           user_to_slot := Function.update g.user_to_slot uid (some slot_no) }

/-- `Game.remove_from_slot`: vacate the user's slot (if any) and
report the freed slot number. -/
def remove_from_slot (g : Game) (uid : Nat) : Game × Option Nat :=
  match g.user_to_slot uid with
  | some s => (clearUser g uid, some s)
  | none => (g, none)

/-- `Game.assign_slot(user_id, slot_no)`: validate the slot number and
occupancy, then silently clear the user's waitlist entry and previous
slot before seating.  Returns `(state, success, message)`. -/
def assign_slot (g : Game) (uid : Nat) (slot_no : Nat) : Game × Bool × String :=
  if ¬(1 ≤ slot_no ∧ slot_no ≤ 10) then (g, false, "존재하지 않는 슬롯입니다.")
  else if g.slots slot_no ≠ none ∧ g.slots slot_no ≠ some uid then
    (g, false, "이미 사용 중인 번호입니다.")
  else
    (seatUser (clearUser (remove_from_waitlist g uid).1 uid) uid slot_no,
     true, toString slot_no ++ "번으로 배정되었습니다.")

/-- `Game.add_waitlist`: reject slot holders, duplicates and a full
queue; else append.  Returns `(state, success, message)`. -/
def add_waitlist (g : Game) (uid : Nat) : Game × Bool × String :=
  if (g.user_to_slot uid).isSome then (g, false, "이미 참여 중입니다.")
  else if uid ∈ g.waitlist then (g, false, "이미 대기 중입니다.")
  else if 5 ≤ g.waitlist.length then (g, false, "대기 인원이 가득 찼습니다. (5/5)")
  else ({ g with waitlist := g.waitlist ++ [uid] }, true, "대기열에 등록되었습니다.")

/-- Promotion of the waitlist head into slot `s` (the tail of
`autopromote_waiter` after the freed slot is settled). -/
def autopromoteAt (g : Game) (s : Nat) : Game × Option Nat :=
  match g.waitlist with
  | [] => (g, none)
  | u :: rest =>
      ({ g with slots := Function.update g.slots s (some u),
                user_to_slot := Function.update g.user_to_slot u (some s),
                waitlist := rest }, some u)

/-- `Game.autopromote_waiter(freed_slot)`: pop the waitlist head into
the freed (or first free) slot. -/
def autopromote_waiter (g : Game) (freed : Option Nat) : Game × Option Nat :=
  match freed with
  | none =>
      match first_free_slot g with
      | none => (g, none)
      | some s => autopromoteAt g s
  | some s => autopromoteAt g s

/-- The operations quantified over by the slot/waitlist invariant
claim: `assignSlot`, `addToWaitlist`, `removeFromSlot`. -/
inductive SOp where
  | assign (uid : Nat) (slot_no : Nat)
  | wait (uid : Nat)
  | leave (uid : Nat)

/-- Apply one slot/waitlist operation, discarding the user-facing
result. -/
def stepSOp (g : Game) (op : SOp) : Game :=
  match op with
  | .assign u s => (assign_slot g u s).1
  | .wait u => (add_waitlist g u).1
  | .leave u => (remove_from_slot g u).1

/-- Run a sequence of slot/waitlist operations on a fresh session. -/
def runOps (ops : List SOp) : Game := ops.foldl stepSOp initGame

/-! ## The slots/waitlist consistency invariant (claim C1) -/

/-- Consistency of a session's roster bookkeeping: the waitlist has no
duplicates, `slots` and `user_to_slot` are mutually inverse, and no
queued user holds a slot. -/
def SlotInv (g : Game) : Prop :=
  g.waitlist.Nodup ∧
  (∀ u s, g.user_to_slot u = some s → g.slots s = some u) ∧
  (∀ s u, g.slots s = some u → g.user_to_slot u = some s) ∧
  (∀ u, u ∈ g.waitlist → g.user_to_slot u = none)

theorem slotInv_initGame : SlotInv initGame := by
  refine ⟨List.nodup_nil, ?_, ?_, ?_⟩ <;> intro u s <;> simp [initGame]

theorem remove_from_waitlist_fst (g : Game) (u : Nat) :
    (remove_from_waitlist g u).1 = { g with waitlist := g.waitlist.erase u } := by
  unfold remove_from_waitlist
  split
  · rfl
  · rw [List.erase_of_not_mem ‹_›]

theorem slotInv_remove_from_waitlist (g : Game) (u : Nat) (h : SlotInv g) :
    SlotInv (remove_from_waitlist g u).1 := by
  obtain ⟨hnd, h1, h2, h3⟩ := h
  rw [remove_from_waitlist_fst]
  exact ⟨hnd.erase u, h1, h2, fun v hv => h3 v (List.mem_of_mem_erase hv)⟩

theorem clearUser_eq_of_none (g : Game) (u : Nat) (hu : g.user_to_slot u = none) :
    clearUser g u = g := by
  unfold clearUser
  rw [hu]

theorem clearUser_eq_of_some (g : Game) (u old : Nat) (hu : g.user_to_slot u = some old) :
    clearUser g u =
      { g with slots := Function.update g.slots old none,
               user_to_slot := Function.update g.user_to_slot u none } := by
  unfold clearUser
  rw [hu]

theorem slotInv_clearUser (g : Game) (u : Nat) (h : SlotInv g) :
    SlotInv (clearUser g u) := by
  obtain ⟨hnd, h1, h2, h3⟩ := h
  cases hu : g.user_to_slot u with
  | none => rw [clearUser_eq_of_none g u hu]; exact ⟨hnd, h1, h2, h3⟩
  | some old =>
      have hgold : g.slots old = some u := h1 u old hu
      rw [clearUser_eq_of_some g u old hu]
      refine ⟨hnd, ?_, ?_, ?_⟩
      · intro v s hv
        simp only [Function.update_apply] at hv ⊢
        split_ifs at hv with hvu
        split_ifs with hsold
        · subst hsold
          have := h1 v s hv
          rw [hgold] at this
          injection this with this2
          exact absurd this2.symm hvu
        · exact h1 v s hv
      · intro s v hv
        simp only [Function.update_apply] at hv ⊢
        split_ifs at hv with hsold
        have hg := h2 s v hv
        split_ifs with hvu
        · subst hvu
          rw [hu] at hg
          injection hg with hg2
          exact absurd hg2.symm hsold
        · exact hg
      · intro v hv
        simp only [Function.update_apply]
        split_ifs with hvu
        · rfl
        · exact h3 v hv

theorem clearUser_user_to_slot_self (g : Game) (u : Nat) :
    (clearUser g u).user_to_slot u = none := by
  cases hu : g.user_to_slot u with
  | none => rw [clearUser_eq_of_none g u hu]; exact hu
  | some old => rw [clearUser_eq_of_some g u old hu]; simp

theorem clearUser_waitlist (g : Game) (u : Nat) :
    (clearUser g u).waitlist = g.waitlist := by
  cases hu : g.user_to_slot u with
  | none => rw [clearUser_eq_of_none g u hu]
  | some old => rw [clearUser_eq_of_some g u old hu]

theorem clearUser_slots_target (g : Game) (u s : Nat) (h : SlotInv g)
    (hs : g.slots s = none ∨ g.slots s = some u) :
    (clearUser g u).slots s = none := by
  obtain ⟨hnd, h1, h2, h3⟩ := h
  cases hu : g.user_to_slot u with
  | none =>
      rw [clearUser_eq_of_none g u hu]
      rcases hs with hs | hs
      · exact hs
      · rw [h2 s u hs] at hu
        cases hu
  | some old =>
      rw [clearUser_eq_of_some g u old hu]
      simp only [Function.update_apply]
      split_ifs with hsold
      · rfl
      · rcases hs with hs | hs
        · exact hs
        · have := h2 s u hs
          rw [hu] at this
          injection this with this2
          exact absurd this2.symm hsold

theorem slotInv_seatUser (g : Game) (u s : Nat) (h : SlotInv g)
    (hu : g.user_to_slot u = none) (hs : g.slots s = none) (hw : u ∉ g.waitlist) :
    SlotInv (seatUser g u s) := by
  obtain ⟨hnd, h1, h2, h3⟩ := h
  unfold seatUser
  refine ⟨hnd, ?_, ?_, ?_⟩
  · intro v t hv
    simp only [Function.update_apply] at hv ⊢
    split_ifs at hv with hvu
    · cases hv
      simp [hvu]
    · have := h1 v t hv
      split_ifs with hts
      · subst hts
        rw [hs] at this
        cases this
      · exact this
  · intro t v hv
    simp only [Function.update_apply] at hv ⊢
    split_ifs at hv with hts
    · cases hv
      simp [hts]
    · have := h2 t v hv
      split_ifs with hvu
      · subst hvu
        rw [hu] at this
        cases this
      · exact this
  · intro v hv
    simp only [Function.update_apply]
    split_ifs with hvu
    · exact absurd (hvu ▸ hv) hw
    · exact h3 v hv

theorem slotInv_assign_slot (g : Game) (u s : Nat) (h : SlotInv g) :
    SlotInv (assign_slot g u s).1 := by
  unfold assign_slot
  split
  · exact h
  · split
    · exact h
    · rename_i hval hocc
      have hval' : 1 ≤ s ∧ s ≤ 10 := not_not.mp hval
      have hocc' : g.slots s = none ∨ g.slots s = some u := by
        by_cases h0 : g.slots s = none
        · exact Or.inl h0
        · right
          by_contra h1
          exact hocc ⟨h0, h1⟩
      have h1 := slotInv_remove_from_waitlist g u h
      have h2 := slotInv_clearUser _ u h1
      refine slotInv_seatUser _ u s h2 (clearUser_user_to_slot_self _ u) ?_ ?_
      · refine clearUser_slots_target _ u s h1 ?_
        rw [remove_from_waitlist_fst]
        exact hocc'
      · rw [clearUser_waitlist, remove_from_waitlist_fst]
        obtain ⟨hnd, _, _, _⟩ := h
        intro hmem
        exact ((List.Nodup.mem_erase_iff hnd).1 hmem).1 rfl

theorem slotInv_add_waitlist (g : Game) (u : Nat) (h : SlotInv g) :
    SlotInv (add_waitlist g u).1 := by
  obtain ⟨hnd, h1, h2, h3⟩ := h
  unfold add_waitlist
  split
  · exact ⟨hnd, h1, h2, h3⟩
  · split
    · exact ⟨hnd, h1, h2, h3⟩
    · split
      · exact ⟨hnd, h1, h2, h3⟩
      · rename_i hslot hmem hlen
        refine ⟨?_, h1, h2, ?_⟩
        · simp [List.nodup_append, hnd, hmem]
        · intro v hv
          rcases List.mem_append.1 hv with hv | hv
          · exact h3 v hv
          · have : v = u := by simpa using hv
            subst this
            simpa using hslot

theorem slotInv_remove_from_slot (g : Game) (u : Nat) (h : SlotInv g) :
    SlotInv (remove_from_slot g u).1 := by
  unfold remove_from_slot
  cases hu : g.user_to_slot u with
  | none => exact h
  | some old => exact slotInv_clearUser g u h

theorem slotInv_stepSOp (g : Game) (op : SOp) (h : SlotInv g) :
    SlotInv (stepSOp g op) := by
  cases op with
  | assign u s => exact slotInv_assign_slot g u s h
  | wait u => exact slotInv_add_waitlist g u h
  | leave u => exact slotInv_remove_from_slot g u h

theorem slotInv_foldl (ops : List SOp) :
    ∀ g : Game, SlotInv g → SlotInv (ops.foldl stepSOp g) := by
  induction ops with
  | nil => exact fun g h => h
  | cons op rest ih => exact fun g h => ih (stepSOp g op) (slotInv_stepSOp g op h)

theorem slotInv_runOps (ops : List SOp) : SlotInv (runOps ops) :=
  slotInv_foldl ops initGame slotInv_initGame

/-! ## Claim C1: an identity never sits in a slot and on the waitlist -/

/-- Claim C1: for every sequence of `assign_slot` / `add_waitlist` /
`remove_from_slot` operations starting from a fresh session, no
identity simultaneously occupies a slot and sits in the waitlist. -/
theorem C1_slot_waitlist_exclusive :
    ∀ (ops : List SOp) (u : Nat), u ∈ (runOps ops).waitlist →
      ∀ s, (runOps ops).slots s ≠ some u := by
  intro ops u hu s hs
  obtain ⟨-, -, h2, h3⟩ := slotInv_runOps ops
  have hnone := h3 u hu
  rw [h2 s u hs] at hnone
  cases hnone

/-- Witness for C1 at a concrete run: user 2 queued after user 1 took
slot 1 is on the waitlist and holds no slot. -/
theorem C1_slot_waitlist_exclusive_witness :
    (runOps [.assign 1 1, .wait 2]).slots 1 ≠ some 2 :=
  C1_slot_waitlist_exclusive [.assign 1 1, .wait 2] 2 (by decide) 1

/-! ## Claims C9 and C10: the point ledger -/

/-- Claim C9 as stated is false: it asks that whenever the balance is
not below the amount, a debit decrease the stored balance by exactly
that amount — but `spend_points` returns `True` without touching the
store for any non-positive amount (here `-1` against a zero balance,
where the claimed new balance would be `1`). -/
theorem C9_counterexample :
    ¬ (∀ (s : Store) (uid : Nat) (amount : Int),
        (get_points s uid < amount → spend_points s uid amount = (false, s)) ∧
        (¬ get_points s uid < amount →
          (spend_points s uid amount).1 = true ∧
          get_points (spend_points s uid amount).2 uid = get_points s uid - amount)) := by
  intro h
  have h2 := ((h initStore 1 (-1)).2 (by decide)).2
  exact absurd h2 (by decide)

/-- Claim C9 (amended): for positive amounts, `spend_points` fails and
leaves the store untouched when the balance is insufficient, and
otherwise succeeds, decreasing exactly the caller's balance by the
amount; `add_points` returns the new balance, which is the old one
plus the amount clamped at zero; and along any sequence of ledger
calls from a fresh store no stored balance is ever negative. -/
theorem C9_ledger_amended :
    (∀ (s : Store) (uid : Nat) (amount : Int), 0 < amount →
       (get_points s uid < amount → spend_points s uid amount = (false, s)) ∧
       (amount ≤ get_points s uid →
         (spend_points s uid amount).1 = true ∧
         get_points (spend_points s uid amount).2 uid = get_points s uid - amount ∧
         (∀ v, v ≠ uid → (spend_points s uid amount).2 v = s v))) ∧
    (∀ (s : Store) (uid : Nat) (amount : Int),
       (add_points s uid amount).1 = get_points (add_points s uid amount).2 uid ∧
       (add_points s uid amount).1 = max 0 (get_points s uid + amount)) ∧
    (∀ (ops : List LOp) (uid : Nat), 0 ≤ get_points (runLedger ops) uid) := by
  refine ⟨?_, ?_, ?_⟩
  · intro s uid amount hpos
    have hnp : ¬ amount ≤ 0 := by omega
    constructor
    · intro hlt
      unfold get_points at hlt
      unfold spend_points
      rw [if_neg hnp, if_pos hlt]
    · intro hge
      unfold get_points at hge
      have hnlt : ¬ (s uid).points < amount := not_lt.2 hge
      unfold spend_points
      rw [if_neg hnp, if_neg hnlt]
      refine ⟨rfl, ?_, ?_⟩
      · simp [get_points, Function.update_same]
      · intro v hv
        simp [Function.update_noteq hv]
  · intro s uid amount
    constructor
    · simp [add_points, get_points, Function.update_same]
    · rfl
  · have key : ∀ (ops : List LOp) (s : Store), (∀ u, 0 ≤ get_points s u) →
        ∀ u, 0 ≤ get_points (runLedgerFrom s ops) u := by
      intro ops
      induction ops with
      | nil => exact fun s hs u => hs u
      | cons op rest ih =>
          intro s hs u
          refine ih (stepLOp s op) ?_ u
          intro v
          cases op with
          | credit w a =>
              by_cases hvw : v = w
              · subst hvw
                simp [stepLOp, add_points, get_points, Function.update_same, creditRec,
                  le_max_left]
              · simp [stepLOp, add_points, get_points, Function.update_noteq hvw]
                exact hs v
          | debit w a =>
              simp only [stepLOp, spend_points]
              split_ifs with h0 hlt
              · exact hs v
              · exact hs v
              · by_cases hvw : v = w
                · subst hvw
                  simp only [get_points, Function.update_same]
                  have := hs v
                  simp only [get_points] at this
                  omega
                · simp only [get_points, Function.update_noteq hvw]
                  exact hs v
    intro ops uid
    refine key ops initStore ?_ uid
    intro u
    simp [get_points, initStore, defaultURec]

/-- Witness for the amended C9 at a concrete input: debiting 5 from a
fresh (zero) balance fails and leaves the store unchanged. -/
theorem C9_ledger_amended_witness :
    spend_points initStore 1 5 = (false, initStore) :=
  (C9_ledger_amended.1 initStore 1 5 (by decide)).1 (by decide)

/-- Claim C10: a non-positive debit amount always succeeds and mutates
nothing. -/
theorem C10_nonpositive_debit :
    ∀ (s : Store) (uid : Nat) (amount : Int), amount ≤ 0 →
      spend_points s uid amount = (true, s) := by
  intro s uid amount h
  unfold spend_points
  rw [if_pos h]

/-- Witness for C10: debiting -3 on a fresh store succeeds and returns
the store unchanged. -/
theorem C10_nonpositive_debit_witness :
    spend_points initStore 7 (-3) = (true, initStore) :=
  C10_nonpositive_debit initStore 7 (-3) (by decide)

/-! ## Claim C5: the snake pick order -/

/-- The `pick_order` assignment in `MatchCog.start_draft`, as a
function of the coin flip. -/
def startPickOrder (first : Nat) : List Nat :=
  if first = 1 then [1, 2, 2, 1, 1, 2, 2, 1] else [2, 1, 1, 2, 2, 1, 1, 2]

/-- Claim C5: for both coin-flip outcomes the pick order is the
8-element snake `[A,B,B,A,A,B,B,A]`: the first-picking team A sits at
1-indexed positions 1, 4, 5, 8 and the other team B everywhere else. -/
theorem C5_snake_pick_order :
    ∀ first : Nat, first = 1 ∨ first = 2 →
      (startPickOrder first).length = 8 ∧
      ∀ i, i < 8 → (startPickOrder first).getD i 0 =
        if i = 0 ∨ i = 3 ∨ i = 4 ∨ i = 7 then first else 3 - first := by
  rintro first (rfl | rfl) <;> exact ⟨rfl, by decide⟩

/-- Witness for C5 when team 1 picks first, at position 4 (1-indexed),
which belongs to the first-picking team. -/
theorem C5_snake_pick_order_witness :
    (startPickOrder 1).length = 8 ∧
    (startPickOrder 1).getD 3 0 =
      if (3 : Nat) = 0 ∨ (3 : Nat) = 3 ∨ (3 : Nat) = 4 ∨ (3 : Nat) = 7 then 1 else 3 - 1 :=
  ⟨(C5_snake_pick_order 1 (Or.inl rfl)).1, (C5_snake_pick_order 1 (Or.inl rfl)).2 3 (by decide)⟩

/-! ## Claim C7: `assign_slot` semantics -/

/-- Claim C7: `assign_slot` fails with the invalid-slot message outside
slots 1..10, fails with the occupied message when a different identity
holds the target, and otherwise succeeds — removing the user from the
waitlist and from any previously held slot (re-seating), then seating
it; assigning a user to its own slot succeeds. -/
theorem C7_assign_slot_spec (g : Game) (uid slot_no : Nat) (hInv : SlotInv g) :
    (¬(1 ≤ slot_no ∧ slot_no ≤ 10) →
      assign_slot g uid slot_no = (g, false, "존재하지 않는 슬롯입니다.")) ∧
    ((1 ≤ slot_no ∧ slot_no ≤ 10) → ∀ v, g.slots slot_no = some v → v ≠ uid →
      assign_slot g uid slot_no = (g, false, "이미 사용 중인 번호입니다.")) ∧
    ((1 ≤ slot_no ∧ slot_no ≤ 10) → (g.slots slot_no = none ∨ g.slots slot_no = some uid) →
      (assign_slot g uid slot_no).2.1 = true ∧
      (assign_slot g uid slot_no).1.slots slot_no = some uid ∧
      (assign_slot g uid slot_no).1.waitlist = g.waitlist.erase uid ∧
      ∀ s, s ≠ slot_no →
        (assign_slot g uid slot_no).1.slots s =
          if g.slots s = some uid then none else g.slots s) := by
  obtain ⟨hnd, h1, h2, h3⟩ := hInv
  refine ⟨?_, ?_, ?_⟩
  · intro hval
    unfold assign_slot
    rw [if_pos hval]
  · intro hval v hv hne
    have hcond : g.slots slot_no ≠ none ∧ g.slots slot_no ≠ some uid := by
      constructor
      · rw [hv]; simp
      · rw [hv]; simp [hne]
    unfold assign_slot
    rw [if_neg (not_not_intro hval), if_pos hcond]
  · intro hval hfree
    have hocc : ¬(g.slots slot_no ≠ none ∧ g.slots slot_no ≠ some uid) := by
      rcases hfree with h | h <;> simp [h]
    unfold assign_slot
    rw [if_neg (not_not_intro hval), if_neg hocc, remove_from_waitlist_fst]
    refine ⟨rfl, ?_, ?_, ?_⟩
    · simp [seatUser]
    · simp [seatUser, clearUser_waitlist]
    · intro s hs
      cases hu : g.user_to_slot uid with
      | none =>
          have hu' : ({ g with waitlist := g.waitlist.erase uid } : Game).user_to_slot uid
              = none := hu
          rw [clearUser_eq_of_none _ uid hu']
          simp only [seatUser, Function.update_apply]
          rw [if_neg hs]
          have hnot : ¬ g.slots s = some uid := by
            intro hcon
            rw [h2 s uid hcon] at hu
            cases hu
          rw [if_neg hnot]
      | some old =>
          have hu' : ({ g with waitlist := g.waitlist.erase uid } : Game).user_to_slot uid
              = some old := hu
          have hgold : g.slots old = some uid := h1 uid old hu
          rw [clearUser_eq_of_some _ uid old hu']
          simp only [seatUser, Function.update_apply]
          rw [if_neg hs]
          by_cases hso : s = old
          · subst hso
            simp [hgold]
          · simp only [if_neg hso]
            have hnot : ¬ g.slots s = some uid := by
              intro hcon
              have hx := h2 s uid hcon
              rw [hu] at hx
              injection hx with hx2
              exact hso hx2.symm
            rw [if_neg hnot]

/-- Witness for C7 at a concrete session: after user 7 takes slot 1,
assigning user 8 to slot 1 fails with the occupied message and leaves
the session unchanged. -/
theorem C7_assign_slot_spec_witness :
    assign_slot (runOps [.assign 7 1]) 8 1 =
      (runOps [.assign 7 1], false, "이미 사용 중인 번호입니다.") :=
  (C7_assign_slot_spec (runOps [.assign 7 1]) 8 1 (slotInv_runOps [.assign 7 1])).2.1
    (by decide) 7 (by decide) (by decide)

/-! ## Result declaration: `ResultView` of `cogs/match.py` (claims C2, C3) -/

/-- `uids_team1` in `ResultView.team1_win`/`team2_win`:
`list(set([captains[0]] + teams[1]))`.  `List.dedup` models the
de-duplication; iteration order of a Python `set` is unspecified, and
no result below depends on the order. -/
def uids_team1 (g : Game) : List Nat :=
  (g.team_captains.getD 0 0 :: g.team1).dedup

/-- `uids_team2`: `list(set([captains[1]] + teams[2]))`. -/
def uids_team2 (g : Game) : List Nat :=
  (g.team_captains.getD 1 0 :: g.team2).dedup

/-- One payout loop of `ResultView`: for each uid, record the outcome
(`update_result_dual`) and credit the reward (`add_points`). -/
def payout (s : Store) (uids : List Nat) (won : Bool) (reward : Int) : Store :=
  uids.foldl (fun st u => (add_points (update_result_dual st u won) u reward).2) s

/-- The net effect of one winning payout iteration on the caller's own
record. -/
def winRec (r : URec) : URec := creditRec (resultRec r true) WIN_REWARD

/-- The net effect of one losing payout iteration on the caller's own
record. -/
def loseRec (r : URec) : URec := creditRec (resultRec r false) LOSE_REWARD

/-- `ResultView.team1_win` (state part): reject when already finished,
else pay out the win reward to team 1, the loss reward to team 2, and
lock the game. -/
def team1_win (g : Game) (s : Store) : (Game × Store) × Option String :=
  if g.finished then ((g, s), some "이미 결과가 기록되었습니다.")
  else
    (({ g with finished := true },
      payout (payout s (uids_team1 g) true WIN_REWARD) (uids_team2 g) false LOSE_REWARD),
     none)

/-- `ResultView.team2_win` (state part). -/
def team2_win (g : Game) (s : Store) : (Game × Store) × Option String :=
  if g.finished then ((g, s), some "이미 결과가 기록되었습니다.")
  else
    (({ g with finished := true },
      payout (payout s (uids_team1 g) false LOSE_REWARD) (uids_team2 g) true WIN_REWARD),
     none)

/-- `ResultView.cancel_game` (state part): no ledger mutation, just
lock. -/
def cancel_game (g : Game) (s : Store) : (Game × Store) × Option String :=
  if g.finished then ((g, s), some "이미 결과가 기록되었습니다.")
  else (({ g with finished := true }, s), none)

/-- The three result-declaration buttons. -/
inductive RAct where
  | t1win
  | t2win
  | cancel

/-- Dispatch one result action. -/
def resultAct : RAct → Game → Store → (Game × Store) × Option String
  | .t1win, g, s => team1_win g s
  | .t2win, g, s => team2_win g s
  | .cancel, g, s => cancel_game g s

theorem payout_cons (s : Store) (u : Nat) (rest : List Nat) (won : Bool) (reward : Int) :
    payout s (u :: rest) won reward =
      payout ((add_points (update_result_dual s u won) u reward).2) rest won reward := rfl

theorem payout_step (s : Store) (u : Nat) (won : Bool) (reward : Int) (v : Nat) :
    (add_points (update_result_dual s u won) u reward).2 v =
      if v = u then creditRec (resultRec (s u) won) reward else s v := by
  by_cases hv : v = u
  · subst hv
    simp [add_points, update_result_dual]
  · simp [add_points, update_result_dual, Function.update_noteq hv, hv]

theorem payout_not_mem (uids : List Nat) :
    ∀ (s : Store) (won : Bool) (reward : Int) (v : Nat),
      v ∉ uids → payout s uids won reward v = s v := by
  induction uids with
  | nil => intro s won reward v _; rfl
  | cons u rest ih =>
      intro s won reward v hv
      have hvu : v ≠ u := fun h => hv (h ▸ List.mem_cons_self u rest)
      have hvrest : v ∉ rest := fun h => hv (List.mem_cons_of_mem u h)
      rw [payout_cons, ih _ _ _ _ hvrest, payout_step, if_neg hvu]

theorem payout_mem (uids : List Nat) :
    ∀ (s : Store) (won : Bool) (reward : Int) (u : Nat), uids.Nodup → u ∈ uids →
      payout s uids won reward u = creditRec (resultRec (s u) won) reward := by
  induction uids with
  | nil => intro s _ _ u _ h; cases h
  | cons w rest ih =>
      intro s won reward u hnd hu
      rw [payout_cons]
      rcases List.mem_cons.1 hu with rfl | hurest
      · have hnotin : u ∉ rest := (List.nodup_cons.1 hnd).1
        rw [payout_not_mem rest _ _ _ _ hnotin, payout_step, if_pos rfl]
      · have hnd2 := (List.nodup_cons.1 hnd).2
        have hw : u ≠ w := fun h => (List.nodup_cons.1 hnd).1 (h ▸ hurest)
        rw [ih _ _ _ _ hnd2 hurest, payout_step, if_neg hw]

/-- Claim C2: on a team-1 win declaration of an unfinished game with
disjoint de-duplicated rosters, every winning-team member's record is
transformed by exactly one win update (+5 points, one recorded win),
every losing-team member's by exactly one loss update (+3 points, one
recorded loss), and every other record is untouched. -/
theorem C2_team1_win_payout (g : Game) (s : Store)
    (hf : g.finished = false)
    (hdisj : ∀ u, u ∈ uids_team1 g → u ∉ uids_team2 g) :
    (team1_win g s).2 = none ∧
    (∀ u, u ∈ uids_team1 g → (team1_win g s).1.2 u = winRec (s u)) ∧
    (∀ u, u ∈ uids_team2 g → (team1_win g s).1.2 u = loseRec (s u)) ∧
    (∀ u, u ∉ uids_team1 g → u ∉ uids_team2 g → (team1_win g s).1.2 u = s u) := by
  have hnf : ¬ g.finished = true := by rw [hf]; exact Bool.false_ne_true
  have hnd1 : (uids_team1 g).Nodup := by unfold uids_team1; exact List.nodup_dedup _
  have hnd2 : (uids_team2 g).Nodup := by unfold uids_team2; exact List.nodup_dedup _
  unfold team1_win
  rw [if_neg hnf]
  refine ⟨rfl, ?_, ?_, ?_⟩
  · intro u hu
    have hnl : u ∉ uids_team2 g := hdisj u hu
    show payout (payout s (uids_team1 g) true WIN_REWARD) (uids_team2 g) false LOSE_REWARD u
        = winRec (s u)
    rw [payout_not_mem _ _ _ _ _ hnl, payout_mem _ _ _ _ _ hnd1 hu]
    rfl
  · intro u hu
    have hnw : u ∉ uids_team1 g := fun hw => hdisj u hw hu
    show payout (payout s (uids_team1 g) true WIN_REWARD) (uids_team2 g) false LOSE_REWARD u
        = loseRec (s u)
    rw [payout_mem _ _ _ _ _ hnd2 hu, payout_not_mem _ _ _ _ _ hnw]
    rfl
  · intro u hnw hnl
    show payout (payout s (uids_team1 g) true WIN_REWARD) (uids_team2 g) false LOSE_REWARD u
        = s u
    rw [payout_not_mem _ _ _ _ _ hnl, payout_not_mem _ _ _ _ _ hnw]

/-- The completed 5 vs 5 game of the C2 witness scenario. -/
def gC2 : Game :=
  { initGame with team_captains := [1, 2],
                  team1 := [1, 3, 4, 5, 6], team2 := [2, 7, 8, 9, 10] }

/-- Witness for C2: in the 10-player scenario, the win declaration
succeeds, player 3 (team 1) gets exactly one win update, player 7
(team 2) exactly one loss update, and player 99 is untouched. -/
theorem C2_team1_win_payout_witness :
    (team1_win gC2 initStore).2 = none ∧
    (team1_win gC2 initStore).1.2 3 = winRec (initStore 3) ∧
    (team1_win gC2 initStore).1.2 7 = loseRec (initStore 7) ∧
    (team1_win gC2 initStore).1.2 99 = initStore 99 := by
  obtain ⟨a, b, c, d⟩ := C2_team1_win_payout gC2 initStore (by decide) (by decide)
  exact ⟨a, b 3 (by decide), c 7 (by decide), d 99 (by decide) (by decide)⟩

/-- Claim C3: once any result action has succeeded the game is locked:
every further result action fails with the already-finished message
and performs zero ledger mutations, and a successful cancellation
itself performs no ledger mutation. -/
theorem C3_result_locked (a : RAct) (g : Game) (st : Store) (g2 : Game) (st2 : Store)
    (hsucc : resultAct a g st = ((g2, st2), none)) :
    g2.finished = true ∧
    (∀ (b : RAct) (st3 : Store),
      resultAct b g2 st3 = ((g2, st3), some "이미 결과가 기록되었습니다.")) ∧
    (a = .cancel → st2 = st) := by
  have hfin : g2.finished = true := by
    cases a <;>
      · simp only [resultAct, team1_win, team2_win, cancel_game] at hsucc
        split_ifs at hsucc with hf
        · simp at hsucc
        · obtain ⟨h1, -⟩ := Prod.mk.injEq .. ▸ hsucc
          obtain ⟨hg, -⟩ := Prod.mk.injEq .. ▸ h1
          rw [← hg]
  refine ⟨hfin, ?_, ?_⟩
  · intro b st3
    cases b <;> simp [resultAct, team1_win, team2_win, cancel_game, hfin]
  · intro ha
    subst ha
    simp only [resultAct, cancel_game] at hsucc
    split_ifs at hsucc with hf
    · simp at hsucc
    · obtain ⟨h1, -⟩ := Prod.mk.injEq .. ▸ hsucc
      obtain ⟨-, hst⟩ := Prod.mk.injEq .. ▸ h1
      exact hst.symm

/-- Witness for C3: cancelling a fresh game succeeds, after which a
team-1 win declaration is rejected with no state change. -/
theorem C3_result_locked_witness :
    resultAct .t1win { initGame with finished := true } initStore =
      (({ initGame with finished := true }, initStore), some "이미 결과가 기록되었습니다.") :=
  (C3_result_locked .cancel initGame initStore { initGame with finished := true } initStore
    rfl).2.1 .t1win initStore

/-! ## Admin replace: `ReplacePickView.do_replace` (claims C4, C8) -/

/-- The three shapes of the incoming-member token of
`ReplacePickView`: an opposing-team member (`"T{other}:{uid}"`), a
waitlist entry (`"W:{uid}"`), or an unassigned slot occupant
(`"P:{uid}"`). -/
inductive InSrc where
  | opp (other : Nat) (in_uid : Nat)
  | wait (in_uid : Nat)
  | unassigned (in_uid : Nat)

/-- The swap branch of `do_replace` (incoming from the opposing team),
run after the outgoing member has been removed from `team_no`. -/
def replaceSwap (g1 : Game) (team_no other out_uid in_uid : Nat) : Game :=
  teamSet
    (teamSet (teamSet g1 other ((teamGet g1 other).erase in_uid)) team_no
      (teamGet (teamSet g1 other ((teamGet g1 other).erase in_uid)) team_no ++ [in_uid]))
    other
    (teamGet
      (teamSet (teamSet g1 other ((teamGet g1 other).erase in_uid)) team_no
        (teamGet (teamSet g1 other ((teamGet g1 other).erase in_uid)) team_no ++ [in_uid]))
      other ++ [out_uid])

/-- Tail of the waitlist branch of `do_replace`: requeue the outgoing
member if the waitlist has room, else drop it from its slot and
attempt an auto-promotion into the freed slot. -/
def waitlistKick (g3 : Game) (out_uid : Nat) : Game :=
  if g3.waitlist.length < 5 then { g3 with waitlist := g3.waitlist ++ [out_uid] }
  else
    match remove_from_slot g3 out_uid with
    | (g4, some f) => (autopromote_waiter g4 (some f)).1
    | (g4, none) => g4

/-- The waitlist branch of `do_replace` after validation: promote the
incoming member onto the team, then requeue or drop the outgoing
member. -/
def replaceFromWait (g1 : Game) (team_no out_uid in_uid : Nat) : Game :=
  waitlistKick
    (teamSet ((remove_from_waitlist g1 in_uid).1) team_no
      (teamGet ((remove_from_waitlist g1 in_uid).1) team_no ++ [in_uid]))
    out_uid

/-- Incoming-source dispatch of `do_replace`; `g1` is the state with
the outgoing member already removed from `team_no`. -/
def replaceIncoming (g1 : Game) (team_no out_uid : Nat) : InSrc → Game × Option String
  | .opp other in_uid =>
      if in_uid ∉ teamGet g1 other then (g1, some "상대 팀 멤버가 아닙니다.")
      else (replaceSwap g1 team_no other out_uid in_uid, none)
  | .wait in_uid =>
      if in_uid ∉ g1.waitlist then (g1, some "대기열에 없는 사용자입니다.")
      else (replaceFromWait g1 team_no out_uid in_uid, none)
  | .unassigned in_uid =>
      if in_uid ∉ participants g1 then (g1, some "참가 상태가 아닌 사용자입니다.")
      else (teamSet g1 team_no (teamGet g1 team_no ++ [in_uid]), none)

/-- `ReplacePickView.do_replace`: validate the outgoing member, then
— exactly as in the source — remove it from the team *before*
validating the incoming reference. -/
def do_replace (g : Game) (team_no out_uid : Nat) (src : InSrc) : Game × Option String :=
  if out_uid ∉ teamGet g team_no then (g, some "선택한 내보낼 멤버가 팀에 없습니다.")
  else
    replaceIncoming (teamSet g team_no ((teamGet g team_no).erase out_uid))
      team_no out_uid src

theorem teamSet_slots (g : Game) (t : Nat) (l : List Nat) :
    (teamSet g t l).slots = g.slots := by
  unfold teamSet
  split_ifs <;> rfl

theorem teamSet_user_to_slot (g : Game) (t : Nat) (l : List Nat) :
    (teamSet g t l).user_to_slot = g.user_to_slot := by
  unfold teamSet
  split_ifs <;> rfl

theorem teamSet_waitlist (g : Game) (t : Nat) (l : List Nat) :
    (teamSet g t l).waitlist = g.waitlist := by
  unfold teamSet
  split_ifs <;> rfl

theorem teamGet_congr (g g2 : Game) (t : Nat)
    (h1 : g2.team1 = g.team1) (h2 : g2.team2 = g.team2) : teamGet g2 t = teamGet g t := by
  unfold teamGet
  split_ifs <;> simp [h1, h2]

theorem teamGet_teamSet_same (g : Game) (t : Nat) (l : List Nat) (ht : t = 1 ∨ t = 2) :
    teamGet (teamSet g t l) t = l := by
  rcases ht with rfl | rfl <;> simp [teamGet, teamSet]

theorem clearUser_team1 (g : Game) (u : Nat) : (clearUser g u).team1 = g.team1 := by
  unfold clearUser
  cases g.user_to_slot u <;> rfl

theorem clearUser_team2 (g : Game) (u : Nat) : (clearUser g u).team2 = g.team2 := by
  unfold clearUser
  cases g.user_to_slot u <;> rfl

theorem remove_from_slot_eq_none (g : Game) (u : Nat) (hu : g.user_to_slot u = none) :
    remove_from_slot g u = (g, none) := by
  unfold remove_from_slot
  rw [hu]

theorem remove_from_slot_eq_some (g : Game) (u s : Nat) (hu : g.user_to_slot u = some s) :
    remove_from_slot g u = (clearUser g u, some s) := by
  unfold remove_from_slot
  rw [hu]

theorem autopromoteAt_cons (g : Game) (s p : Nat) (tail : List Nat)
    (hw : g.waitlist = p :: tail) :
    autopromoteAt g s =
      ({ g with slots := Function.update g.slots s (some p),
                user_to_slot := Function.update g.user_to_slot p (some s),
                waitlist := tail }, some p) := by
  unfold autopromoteAt
  rw [hw]

theorem waitlistKick_small (g3 : Game) (out_uid : Nat) (h : g3.waitlist.length < 5) :
    waitlistKick g3 out_uid = { g3 with waitlist := g3.waitlist ++ [out_uid] } := by
  unfold waitlistKick
  rw [if_pos h]

theorem waitlistKick_full_noslot (g3 : Game) (out_uid : Nat)
    (h : ¬ g3.waitlist.length < 5) (hu : g3.user_to_slot out_uid = none) :
    waitlistKick g3 out_uid = g3 := by
  unfold waitlistKick
  rw [if_neg h, remove_from_slot_eq_none g3 out_uid hu]

theorem waitlistKick_full_slot (g3 : Game) (out_uid s0 p : Nat) (tail : List Nat)
    (h : ¬ g3.waitlist.length < 5) (hu : g3.user_to_slot out_uid = some s0)
    (hw : (clearUser g3 out_uid).waitlist = p :: tail) :
    waitlistKick g3 out_uid =
      { clearUser g3 out_uid with
          slots := Function.update (clearUser g3 out_uid).slots s0 (some p),
          user_to_slot := Function.update (clearUser g3 out_uid).user_to_slot p (some s0),
          waitlist := tail } := by
  unfold waitlistKick
  rw [if_neg h, remove_from_slot_eq_some g3 out_uid s0 hu]
  show (autopromoteAt (clearUser g3 out_uid) s0).1 = _
  rw [autopromoteAt_cons (clearUser g3 out_uid) s0 p tail hw]

/-! ## Claim C4: validation versus mutation -/

/-- A mid-draft state for the C4 counterexample: team 1 is `[1, 2]`,
the waitlist is empty. -/
def gC4 : Game := { initGame with team1 := [1, 2] }

/-- Claim C4 is false on the code: `do_replace` removes the outgoing
member from the team *before* validating the incoming reference, so a
waitlist-sourced replace whose incoming user is not queued returns a
failure yet has already mutated the team.  Concretely, replacing
member 2 of team `[1, 2]` by the stale waitlist entry 99 fails with
the not-in-waitlist message while team 1 has become `[1]`. -/
theorem C4_counterexample :
    (do_replace gC4 1 2 (.wait 99)).2 = some "대기열에 없는 사용자입니다." ∧
    teamGet (do_replace gC4 1 2 (.wait 99)).1 1 ≠ teamGet gC4 1 := by
  constructor
  · rfl
  · decide

/-- Claim C4 (amended): `assign_slot`, `add_waitlist` and the result
actions never mutate state on failure; `do_replace` leaves the state
unchanged when the *outgoing* check fails, but when an
incoming-source check fails (any of the three source shapes) the
returned state is the original with the outgoing member already erased
from the team. -/
theorem C4_checks_precede_mutation_amended :
    (∀ (g : Game) (uid slot_no : Nat),
        (assign_slot g uid slot_no).2.1 = false → (assign_slot g uid slot_no).1 = g) ∧
    (∀ (g : Game) (uid : Nat),
        (add_waitlist g uid).2.1 = false → (add_waitlist g uid).1 = g) ∧
    (∀ (a : RAct) (g : Game) (st : Store),
        ((resultAct a g st).2).isSome = true → (resultAct a g st).1 = (g, st)) ∧
    (∀ (g : Game) (team_no out_uid : Nat) (src : InSrc),
        out_uid ∉ teamGet g team_no →
        do_replace g team_no out_uid src = (g, some "선택한 내보낼 멤버가 팀에 없습니다.")) ∧
    (∀ (g : Game) (team_no out_uid : Nat) (src : InSrc),
        out_uid ∈ teamGet g team_no → ((do_replace g team_no out_uid src).2).isSome = true →
        (do_replace g team_no out_uid src).1 =
          teamSet g team_no ((teamGet g team_no).erase out_uid)) := by
  refine ⟨?_, ?_, ?_, ?_, ?_⟩
  · intro g uid slot_no h
    by_cases h1 : 1 ≤ slot_no ∧ slot_no ≤ 10
    · by_cases h2 : g.slots slot_no ≠ none ∧ g.slots slot_no ≠ some uid
      · unfold assign_slot
        rw [if_neg (not_not_intro h1), if_pos h2]
      · exfalso
        unfold assign_slot at h
        rw [if_neg (not_not_intro h1), if_neg h2] at h
        simp at h
    · unfold assign_slot
      rw [if_pos h1]
  · intro g uid h
    by_cases h1 : (g.user_to_slot uid).isSome = true
    · unfold add_waitlist
      rw [if_pos h1]
    · by_cases h2 : uid ∈ g.waitlist
      · unfold add_waitlist
        rw [if_neg h1, if_pos h2]
      · by_cases h3 : 5 ≤ g.waitlist.length
        · unfold add_waitlist
          rw [if_neg h1, if_neg h2, if_pos h3]
        · exfalso
          unfold add_waitlist at h
          rw [if_neg h1, if_neg h2, if_neg h3] at h
          simp at h
  · intro a g st h
    by_cases hf : g.finished = true
    · cases a with
      | t1win =>
        simp only [resultAct]
        unfold team1_win
        rw [if_pos hf]
      | t2win =>
        simp only [resultAct]
        unfold team2_win
        rw [if_pos hf]
      | cancel =>
        simp only [resultAct]
        unfold cancel_game
        rw [if_pos hf]
    · exfalso
      cases a with
      | t1win =>
        simp only [resultAct] at h
        unfold team1_win at h
        rw [if_neg hf] at h
        simp at h
      | t2win =>
        simp only [resultAct] at h
        unfold team2_win at h
        rw [if_neg hf] at h
        simp at h
      | cancel =>
        simp only [resultAct] at h
        unfold cancel_game at h
        rw [if_neg hf] at h
        simp at h
  · intro g team_no out_uid src hout
    unfold do_replace
    rw [if_pos hout]
  · intro g team_no out_uid src hout h
    unfold do_replace at h ⊢
    rw [if_neg (not_not_intro hout)] at h ⊢
    cases src with
    | opp other in_uid =>
        simp only [replaceIncoming] at h ⊢
        by_cases hin :
            in_uid ∉ teamGet (teamSet g team_no ((teamGet g team_no).erase out_uid)) other
        · rw [if_pos hin]
        · exfalso
          rw [if_neg hin] at h
          simp at h
    | wait in_uid =>
        simp only [replaceIncoming] at h ⊢
        by_cases hin :
            in_uid ∉ (teamSet g team_no ((teamGet g team_no).erase out_uid)).waitlist
        · rw [if_pos hin]
        · exfalso
          rw [if_neg hin] at h
          simp at h
    | unassigned in_uid =>
        simp only [replaceIncoming] at h ⊢
        by_cases hin :
            in_uid ∉ participants (teamSet g team_no ((teamGet g team_no).erase out_uid))
        · rw [if_pos hin]
        · exfalso
          rw [if_neg hin] at h
          simp at h

/-- Witness for the amended C4: the failing waitlist-sourced replace
of the counterexample returns exactly the original state with member 2
erased from team 1. -/
theorem C4_checks_precede_mutation_amended_witness :
    (do_replace gC4 1 2 (.wait 99)).1 = teamSet gC4 1 ((teamGet gC4 1).erase 2) :=
  C4_checks_precede_mutation_amended.2.2.2.2 gC4 1 2 (.wait 99) (by decide) (by decide)

/-! ## Claim C8: the waitlist-sourced replace -/

theorem replaceFromWait_spec (g1 : Game) (team_no out_uid in_uid : Nat)
    (ht : team_no = 1 ∨ team_no = 2)
    (hnw1 : out_uid ∉ g1.waitlist)
    (hB : ∀ s, g1.slots s = some out_uid → g1.user_to_slot out_uid = some s) :
    teamGet (replaceFromWait g1 team_no out_uid in_uid) team_no
      = teamGet g1 team_no ++ [in_uid] ∧
    ((g1.waitlist.erase in_uid).length < 5 →
      (replaceFromWait g1 team_no out_uid in_uid).waitlist
        = g1.waitlist.erase in_uid ++ [out_uid] ∧
      (replaceFromWait g1 team_no out_uid in_uid).slots = g1.slots) ∧
    (5 ≤ (g1.waitlist.erase in_uid).length →
      out_uid ∉ (replaceFromWait g1 team_no out_uid in_uid).waitlist ∧
      (g1.user_to_slot out_uid = none →
        (replaceFromWait g1 team_no out_uid in_uid).waitlist = g1.waitlist.erase in_uid ∧
        (replaceFromWait g1 team_no out_uid in_uid).slots = g1.slots) ∧
      (∀ s0 p tail, g1.user_to_slot out_uid = some s0 →
          g1.waitlist.erase in_uid = p :: tail →
        (replaceFromWait g1 team_no out_uid in_uid).slots s0 = some p ∧
        (replaceFromWait g1 team_no out_uid in_uid).waitlist = tail ∧
        ∀ s, (replaceFromWait g1 team_no out_uid in_uid).slots s ≠ some out_uid)) := by
  have hG2t : teamGet { g1 with waitlist := g1.waitlist.erase in_uid } team_no
      = teamGet g1 team_no := teamGet_congr g1 _ team_no rfl rfl
  have hRW : replaceFromWait g1 team_no out_uid in_uid =
      waitlistKick (teamSet { g1 with waitlist := g1.waitlist.erase in_uid } team_no
        (teamGet g1 team_no ++ [in_uid])) out_uid := by
    unfold replaceFromWait
    rw [remove_from_waitlist_fst g1 in_uid, hG2t]
  set W := g1.waitlist.erase in_uid with hW
  set g3 := teamSet { g1 with waitlist := W } team_no (teamGet g1 team_no ++ [in_uid])
    with hg3
  have hg3w : g3.waitlist = W := by rw [hg3, teamSet_waitlist]
  have hg3s : g3.slots = g1.slots := by rw [hg3, teamSet_slots]
  have hg3u : g3.user_to_slot = g1.user_to_slot := by rw [hg3, teamSet_user_to_slot]
  have hg3T : teamGet g3 team_no = teamGet g1 team_no ++ [in_uid] := by
    rw [hg3]
    exact teamGet_teamSet_same _ _ _ ht
  by_cases hlen : W.length < 5
  · have hk : waitlistKick g3 out_uid = { g3 with waitlist := g3.waitlist ++ [out_uid] } :=
      waitlistKick_small g3 out_uid (by rw [hg3w]; exact hlen)
    refine ⟨?_, fun _ => ⟨?_, ?_⟩, fun h5 => absurd hlen (by omega)⟩
    · rw [hRW, hk]
      exact (teamGet_congr g3 _ team_no rfl rfl).trans hg3T
    · rw [hRW, hk]
      show g3.waitlist ++ [out_uid] = W ++ [out_uid]
      rw [hg3w]
    · rw [hRW, hk]
      show g3.slots = g1.slots
      exact hg3s
  · cases hu : g1.user_to_slot out_uid with
    | none =>
        have hk : waitlistKick g3 out_uid = g3 :=
          waitlistKick_full_noslot g3 out_uid (by rw [hg3w]; exact hlen)
            (by rw [hg3u]; exact hu)
        refine ⟨?_, fun hcon => absurd hcon hlen, fun h5 => ⟨?_, fun _ => ⟨?_, ?_⟩, ?_⟩⟩
        · rw [hRW, hk, hg3T]
        · rw [hRW, hk, hg3w]
          intro hout2
          rw [hW] at hout2
          exact hnw1 (List.mem_of_mem_erase hout2)
        · rw [hRW, hk, hg3w]
        · rw [hRW, hk, hg3s]
        · intro s0 p tail hsome
          cases hsome
    | some s0' =>
        have hne : W ≠ [] := by
          intro h0
          rw [h0] at hlen
          exact hlen (by simp)
        obtain ⟨p, tail, hwl⟩ := List.exists_cons_of_ne_nil hne
        have hg3usome : g3.user_to_slot out_uid = some s0' := by rw [hg3u]; exact hu
        have hcw : (clearUser g3 out_uid).waitlist = p :: tail := by
          rw [clearUser_waitlist, hg3w, hwl]
        have hk := waitlistKick_full_slot g3 out_uid s0' p tail
          (by rw [hg3w]; exact hlen) hg3usome hcw
        have hcs : (clearUser g3 out_uid).slots = Function.update g3.slots s0' none := by
          rw [clearUser_eq_of_some g3 out_uid s0' hg3usome]
        have hpW : p ∈ g1.waitlist := by
          have : p ∈ W := by rw [hwl]; exact List.mem_cons_self p tail
          rw [hW] at this
          exact List.mem_of_mem_erase this
        refine ⟨?_, fun hcon => absurd hcon hlen, fun h5 => ⟨?_, ?_, ?_⟩⟩
        · rw [hRW, hk]
          exact (teamGet_congr (clearUser g3 out_uid) _ team_no rfl rfl).trans
            (((teamGet_congr g3 _ team_no (clearUser_team1 g3 out_uid)
              (clearUser_team2 g3 out_uid))).trans hg3T)
        · rw [hRW, hk]
          show out_uid ∉ tail
          intro hmem
          have : out_uid ∈ W := by rw [hwl]; exact List.mem_cons_of_mem p hmem
          rw [hW] at this
          exact hnw1 (List.mem_of_mem_erase this)
        · intro h0
          cases h0
        · intro s0 p2 tail2 hsome hwl2
          injection hsome with hs0
          subst hs0
          rw [hwl] at hwl2
          injection hwl2 with hp htail
          subst hp
          subst htail
          refine ⟨?_, ?_, ?_⟩
          · rw [hRW, hk]
            show Function.update (clearUser g3 out_uid).slots s0' (some p) s0' = some p
            rw [Function.update_same]
          · rw [hRW, hk]
          · intro s
            rw [hRW, hk]
            show Function.update (clearUser g3 out_uid).slots s0' (some p) s ≠ some out_uid
            rw [Function.update_apply]
            split_ifs with hss
            · intro hcon
              injection hcon with hpo
              rw [hpo] at hpW
              exact hnw1 hpW
            · intro hcon
              rw [hcs, Function.update_apply, if_neg hss, hg3s] at hcon
              have h7 := hB s hcon
              rw [hu] at h7
              injection h7 with h8
              exact hss h8.symm

/-- Claim C8: a validated waitlist-sourced replace promotes the
incoming member onto the team and removes the outgoing member from it;
if, after the incoming member left the queue, the waitlist is still at
capacity (length ≥ 5), the outgoing member is dropped from the roster
entirely — not re-queued, its slot vacated — and an auto-promotion of
the waitlist head into the freed slot is attempted; otherwise the
outgoing member is appended to the waitlist tail and no slot
changes. -/
theorem C8_replace_waitlist_branch (g : Game) (team_no out_uid in_uid : Nat)
    (hInv : SlotInv g)
    (hout : out_uid ∈ teamGet g team_no)
    (hnw : out_uid ∉ g.waitlist)
    (hin : in_uid ∈ g.waitlist) :
    (do_replace g team_no out_uid (.wait in_uid)).2 = none ∧
    teamGet (do_replace g team_no out_uid (.wait in_uid)).1 team_no
      = (teamGet g team_no).erase out_uid ++ [in_uid] ∧
    ((g.waitlist.erase in_uid).length < 5 →
      (do_replace g team_no out_uid (.wait in_uid)).1.waitlist
        = g.waitlist.erase in_uid ++ [out_uid] ∧
      (do_replace g team_no out_uid (.wait in_uid)).1.slots = g.slots) ∧
    (5 ≤ (g.waitlist.erase in_uid).length →
      out_uid ∉ (do_replace g team_no out_uid (.wait in_uid)).1.waitlist ∧
      (g.user_to_slot out_uid = none →
        (do_replace g team_no out_uid (.wait in_uid)).1.waitlist
          = g.waitlist.erase in_uid ∧
        (do_replace g team_no out_uid (.wait in_uid)).1.slots = g.slots) ∧
      (∀ s0 p tail, g.user_to_slot out_uid = some s0 →
          g.waitlist.erase in_uid = p :: tail →
        (do_replace g team_no out_uid (.wait in_uid)).1.slots s0 = some p ∧
        (do_replace g team_no out_uid (.wait in_uid)).1.waitlist = tail ∧
        ∀ s, (do_replace g team_no out_uid (.wait in_uid)).1.slots s ≠ some out_uid)) := by
  obtain ⟨hnd, h1, h2, h3⟩ := hInv
  have ht : team_no = 1 ∨ team_no = 2 := by
    by_contra hcon
    push_neg at hcon
    unfold teamGet at hout
    rw [if_neg hcon.1, if_neg hcon.2] at hout
    exact absurd hout (List.not_mem_nil _)
  set g1 := teamSet g team_no ((teamGet g team_no).erase out_uid) with hg1
  have e_w : g1.waitlist = g.waitlist := by rw [hg1, teamSet_waitlist]
  have e_s : g1.slots = g.slots := by rw [hg1, teamSet_slots]
  have e_u : g1.user_to_slot = g.user_to_slot := by rw [hg1, teamSet_user_to_slot]
  have e_T : teamGet g1 team_no = (teamGet g team_no).erase out_uid := by
    rw [hg1]
    exact teamGet_teamSet_same _ _ _ ht
  have hred : do_replace g team_no out_uid (.wait in_uid)
      = (replaceFromWait g1 team_no out_uid in_uid, none) := by
    unfold do_replace
    rw [if_neg (not_not_intro hout)]
    simp only [replaceIncoming]
    rw [if_neg (not_not_intro (show in_uid ∈ g1.waitlist by rw [e_w]; exact hin))]
  obtain ⟨sA, sB, sC⟩ := replaceFromWait_spec g1 team_no out_uid in_uid ht
    (by rw [e_w]; exact hnw)
    (by
      intro s hs
      rw [e_s] at hs
      rw [e_u]
      exact h2 s out_uid hs)
  have e_W : g1.waitlist.erase in_uid = g.waitlist.erase in_uid := by rw [e_w]
  refine ⟨by rw [hred], ?_, ?_, ?_⟩
  · rw [hred]
    show teamGet (replaceFromWait g1 team_no out_uid in_uid) team_no = _
    rw [sA, e_T]
  · intro hlen
    rw [← e_W] at hlen
    obtain ⟨b1, b2⟩ := sB hlen
    constructor
    · rw [hred]
      show (replaceFromWait g1 team_no out_uid in_uid).waitlist = _
      rw [b1, e_W]
    · rw [hred]
      show (replaceFromWait g1 team_no out_uid in_uid).slots = _
      rw [b2, e_s]
  · intro h5
    rw [← e_W] at h5
    obtain ⟨c1, c2, c3⟩ := sC h5
    refine ⟨?_, ?_, ?_⟩
    · rw [hred]
      show out_uid ∉ (replaceFromWait g1 team_no out_uid in_uid).waitlist
      exact c1
    · intro h0
      rw [← e_u] at h0
      obtain ⟨d1, d2⟩ := c2 h0
      constructor
      · rw [hred]
        show (replaceFromWait g1 team_no out_uid in_uid).waitlist = _
        rw [d1, e_W]
      · rw [hred]
        show (replaceFromWait g1 team_no out_uid in_uid).slots = _
        rw [d2, e_s]
    · intro s0 p tail hsome hwl
      rw [← e_u] at hsome
      rw [← e_W] at hwl
      obtain ⟨f1, f2, f3⟩ := c3 s0 p tail hsome hwl
      refine ⟨?_, ?_, ?_⟩
      · rw [hred]
        exact f1
      · rw [hred]
        exact f2
      · intro s
        rw [hred]
        exact f3 s

/-- Transferring the roster invariant across a pure team-fields
update (the invariant does not mention the team lists). -/
theorem slotInv_set_teams (g : Game) (tc t1 t2 : List Nat) (h : SlotInv g) :
    SlotInv { g with team_captains := tc, team1 := t1, team2 := t2 } := h

/-- The concrete session of the C8 witness: users 1 and 2 hold slots 1
and 2 and form team 1; users 11 and 12 queue on the waitlist. -/
def gC8 : Game :=
  { runOps [.assign 1 1, .assign 2 2, .wait 11, .wait 12] with
      team_captains := [1, 2], team1 := [1, 2], team2 := [] }

/-- Witness for C8 at a concrete state: replacing team-1 member 2 by
waitlist head 11 succeeds; as the waitlist is not at capacity, member
2 is re-queued at the tail. -/
theorem C8_replace_waitlist_branch_witness :
    (do_replace gC8 1 2 (.wait 11)).2 = none ∧
    (do_replace gC8 1 2 (.wait 11)).1.waitlist = gC8.waitlist.erase 11 ++ [2] := by
  obtain ⟨w1, w2, w3, w4⟩ := C8_replace_waitlist_branch gC8 1 2 11
    (slotInv_set_teams _ _ _ _
      (slotInv_runOps [.assign 1 1, .assign 2 2, .wait 11, .wait 12]))
    (by decide) (by decide) (by decide)
  exact ⟨w1, (w3 (by decide)).1⟩

/-! ## The draft engine: `send_draft_ui` of `cogs/match.py` (claim C6) -/

theorem teamSet_team_captains (g : Game) (t : Nat) (l : List Nat) :
    (teamSet g t l).team_captains = g.team_captains := by
  unfold teamSet
  split_ifs <;> rfl

theorem teamSet_pick_order (g : Game) (t : Nat) (l : List Nat) :
    (teamSet g t l).pick_order = g.pick_order := by
  unfold teamSet
  split_ifs <;> rfl

theorem teamSet_draft_turn (g : Game) (t : Nat) (l : List Nat) :
    (teamSet g t l).draft_turn = g.draft_turn := by
  unfold teamSet
  split_ifs <;> rfl

theorem teamSet_pick_history (g : Game) (t : Nat) (l : List Nat) :
    (teamSet g t l).pick_history = g.pick_history := by
  unfold teamSet
  split_ifs <;> rfl

/-- `DraftView.select_callback` as seen from the session state: the
pair carries the game and the `available` pool threaded through
`send_draft_ui`.  The first guard models `send_draft_ui` routing to
`finish_teams` (no picker is shown once the pool is empty or the turn
index has run out); the captain and pool checks are the callback's
own. -/
def pickA : Game × List Nat → Nat → Nat → Except String (Game × List Nat)
  | (g, avail), actor, target =>
    if avail.isEmpty ∨ g.pick_order.length ≤ g.draft_turn then
      Except.error "팀 구성이 이미 완료되었습니다."
    else if actor ≠ g.team_captains.getD (g.pick_order.getD g.draft_turn 0 - 1) 0 then
      Except.error "지금은 다른 팀장의 차례입니다."
    else if target ∉ avail then
      Except.error "이미 선택된 유저입니다."
    else
      Except.ok
        ({ teamSet g (g.pick_order.getD g.draft_turn 0)
             (teamGet g (g.pick_order.getD g.draft_turn 0) ++ [target]) with
           pick_history := g.pick_history ++ [(g.pick_order.getD g.draft_turn 0, target)],
           draft_turn := g.draft_turn + 1 },
         avail.erase target)

/-- `DraftView.undo_pick` as seen from the session state (the
host/admin permission gate is presentation-layer): pop the last
`(team, uid)` pick, remove the uid from that team if present, return
it to the pool if absent, and decrement the turn when positive. -/
def undoA : Game × List Nat → Except String (Game × List Nat)
  | (g, avail) =>
    match g.pick_history.getLast? with
    | none => Except.error "되돌릴 선택이 없습니다."
    | some (t, u) =>
        Except.ok
          ({ teamSet g t ((teamGet g t).erase u) with
             pick_history := g.pick_history.dropLast,
             draft_turn := if 0 < g.draft_turn then g.draft_turn - 1 else g.draft_turn },
           if u ∈ avail then avail else avail ++ [u])

/-- Draft states reachable from `start_draft` (captains seeded as sole
team members, a snake pick order from the coin flip, the shuffled
non-captain pool) by `select_callback` picks and `undo_pick` undos. -/
inductive DReach : Game × List Nat → Prop where
  | start (g : Game) (pool : List Nat) (first : Nat) :
      g.team_captains.length = 2 →
      (g.team_captains ++ pool).Nodup →
      g.team1 = [g.team_captains.getD 0 0] →
      g.team2 = [g.team_captains.getD 1 0] →
      g.pick_order = startPickOrder first →
      g.draft_turn = 0 →
      g.pick_history = [] →
      DReach (g, pool)
  | pick (s s2 : Game × List Nat) (actor target : Nat) :
      DReach s → pickA s actor target = Except.ok s2 → DReach s2
  | undo (s s2 : Game × List Nat) :
      DReach s → undoA s = Except.ok s2 → DReach s2

/-- The inductive invariant of reachable draft states: the turn index
counts the pick history, history teams follow the pick order, each
team list is its captain followed by its picks in order, and captains,
picked users and the pool are mutually distinct. -/
def DInv (s : Game × List Nat) : Prop :=
  s.1.team_captains.length = 2 ∧
  s.1.draft_turn = s.1.pick_history.length ∧
  s.1.pick_history.length ≤ s.1.pick_order.length ∧
  (∀ i, i < s.1.pick_history.length →
    (s.1.pick_history.getD i (0, 0)).1 = s.1.pick_order.getD i 0) ∧
  (∀ x ∈ s.1.pick_order, x = 1 ∨ x = 2) ∧
  s.1.team1 = s.1.team_captains.getD 0 0 ::
    ((s.1.pick_history.filter (fun q => q.1 == 1)).map Prod.snd) ∧
  s.1.team2 = s.1.team_captains.getD 1 0 ::
    ((s.1.pick_history.filter (fun q => q.1 == 2)).map Prod.snd) ∧
  (s.1.team_captains ++ s.1.pick_history.map Prod.snd ++ s.2).Nodup

theorem getD_concat_self (l : List α) (x d : α) : (l ++ [x]).getD l.length d = x := by
  rw [List.getD_eq_getElem _ _ (by simp)]
  exact List.getElem_concat_length l x _ (by simp) (by simp)

theorem nodup_shuffle_pick (c p A : List Nat) (t : Nat) (ht : t ∈ A)
    (h : (c ++ p ++ A).Nodup) : (c ++ (p ++ [t]) ++ A.erase t).Nodup := by
  have h1 := (List.Perm.append_left (c ++ p) (List.perm_cons_erase ht)).nodup h
  simpa [List.append_assoc] using h1

theorem nodup_shuffle_undo (c p A : List Nat) (u : Nat)
    (h : (c ++ (p ++ [u]) ++ A).Nodup) : (c ++ p ++ (A ++ [u])).Nodup := by
  have h1 : (c ++ (p ++ ([u] ++ A))).Nodup := by simpa [List.append_assoc] using h
  have h2 := (List.Perm.append_left c (List.Perm.append_left p List.perm_append_comm)).nodup h1
  simpa [List.append_assoc] using h2

theorem dInv_start (g : Game) (pool : List Nat) (first : Nat)
    (hc : g.team_captains.length = 2)
    (hnd : (g.team_captains ++ pool).Nodup)
    (ht1 : g.team1 = [g.team_captains.getD 0 0])
    (ht2 : g.team2 = [g.team_captains.getD 1 0])
    (hpo : g.pick_order = startPickOrder first)
    (hturn : g.draft_turn = 0)
    (hhist : g.pick_history = []) :
    DInv (g, pool) := by
  refine ⟨hc, ?_, ?_, ?_, ?_, ?_, ?_, ?_⟩
  · rw [hturn, hhist]
    rfl
  · rw [hhist]
    simp
  · intro i hi
    rw [hhist] at hi
    simp at hi
  · intro x hx
    rw [hpo] at hx
    unfold startPickOrder at hx
    split_ifs at hx <;> simp at hx <;> omega
  · rw [ht1, hhist]
    rfl
  · rw [ht2, hhist]
    rfl
  · rw [hhist]
    simpa using hnd

theorem dInv_pick (g : Game) (A : List Nat) (a t : Nat) (s2 : Game × List Nat)
    (hInv : DInv (g, A)) (h : pickA (g, A) a t = Except.ok s2) : DInv s2 := by
  obtain ⟨k1, k2, k3, k4, k5, k6, k7, k8⟩ := hInv
  dsimp only at k1 k2 k3 k4 k5 k6 k7 k8
  simp only [pickA] at h
  by_cases c1 : A.isEmpty = true ∨ g.pick_order.length ≤ g.draft_turn
  · rw [if_pos c1] at h
    simp at h
  · rw [if_neg c1] at h
    by_cases c2 : a ≠ g.team_captains.getD (g.pick_order.getD g.draft_turn 0 - 1) 0
    · rw [if_pos c2] at h
      simp at h
    · rw [if_neg c2] at h
      by_cases c3 : t ∉ A
      · rw [if_pos c3] at h
        simp at h
      · rw [if_neg c3] at h
        have hmem : t ∈ A := not_not.mp c3
        have hlt : g.draft_turn < g.pick_order.length := by
          rcases not_or.mp c1 with ⟨-, hb⟩
          omega
        obtain ⟨tm, htm⟩ : ∃ tm, g.pick_order.getD g.draft_turn 0 = tm := ⟨_, rfl⟩
        rw [htm] at h
        injection h with h2
        subst h2
        have htmem : tm ∈ g.pick_order := by
          rw [← htm, List.getD_eq_getElem _ _ hlt]
          exact List.getElem_mem _
        have htm12 : tm = 1 ∨ tm = 2 := k5 tm htmem
        refine ⟨?_, ?_, ?_, ?_, ?_, ?_, ?_, ?_⟩
        · simp only [teamSet_team_captains]
          exact k1
        · simp only [teamSet_pick_history, List.length_append, List.length_singleton]
          omega
        · simp only [teamSet_pick_order, List.length_append, List.length_singleton]
          omega
        · intro i hi
          simp only [List.length_append, List.length_singleton] at hi
          simp only [teamSet_pick_order]
          by_cases hi2 : i < g.pick_history.length
          · rw [List.getD_append _ _ _ _ hi2]
            exact k4 i hi2
          · have hieq : i = g.pick_history.length := by omega
            subst hieq
            rw [getD_concat_self]
            rw [← k2, htm]
        · simp only [teamSet_pick_order]
          exact k5
        · rcases htm12 with rfl | rfl <;>
            simp [teamSet, teamGet, k6, List.filter_append]
        · rcases htm12 with rfl | rfl <;>
            simp [teamSet, teamGet, k7, List.filter_append]
        · simp only [teamSet_team_captains, List.map_append]
          exact nodup_shuffle_pick _ _ _ _ hmem k8

theorem erase_cons_append_self (c : Nat) (w : List Nat) (u : Nat)
    (hc : u ≠ c) (hw : u ∉ w) : (c :: (w ++ [u])).erase u = c :: w := by
  rw [show (c :: (w ++ [u])) = [c] ++ (w ++ [u]) from rfl,
    List.erase_append_right _ (by simp [hc]),
    List.erase_append_right _ hw, List.erase_cons_head]
  simp

theorem dInv_undo (g : Game) (A : List Nat) (s2 : Game × List Nat)
    (hInv : DInv (g, A)) (h : undoA (g, A) = Except.ok s2) : DInv s2 := by
  obtain ⟨k1, k2, k3, k4, k5, k6, k7, k8⟩ := hInv
  dsimp only at k1 k2 k3 k4 k5 k6 k7 k8
  simp only [undoA] at h
  cases hlast : g.pick_history.getLast? with
  | none =>
      rw [hlast] at h
      simp at h
  | some tu =>
      obtain ⟨tmu, u⟩ := tu
      rw [hlast] at h
      injection h with h2
      subst h2
      have hne : g.pick_history ≠ [] := by
        intro h0
        rw [h0] at hlast
        simp at hlast
      have hlenpos : 0 < g.pick_history.length := List.length_pos.2 hne
      have hsplit : g.pick_history.dropLast ++ [(tmu, u)] = g.pick_history :=
        List.dropLast_append_getLast? _ (by rw [Option.mem_def, hlast])
      have hu_mem_picks : u ∈ g.pick_history.map Prod.snd := by
        rw [← hsplit]
        simp
      have hcpA : (g.team_captains ++ (g.pick_history.map Prod.snd ++ A)).Nodup := by
        have tmp := k8
        rw [List.append_assoc] at tmp
        exact tmp
      have hpA : (g.pick_history.map Prod.snd ++ A).Nodup := hcpA.of_append_right
      have hcp : (g.team_captains ++ g.pick_history.map Prod.snd).Nodup :=
        k8.of_append_left
      have huA : u ∉ A := fun hA => (List.nodup_append.1 hpA).2.2 hu_mem_picks hA
      have hturnpos : 0 < g.draft_turn := by rw [k2]; exact hlenpos
      have h8 : g.pick_history.getD (g.pick_history.length - 1) (0, 0) = (tmu, u) := by
        have t0 := getD_concat_self g.pick_history.dropLast (tmu, u) (0, 0)
        rw [hsplit] at t0
        rw [List.length_dropLast] at t0
        exact t0
      have h7 := k4 (g.pick_history.length - 1) (by omega)
      rw [h8] at h7
      dsimp only at h7
      have htmu_mem : tmu ∈ g.pick_order := by
        rw [h7, List.getD_eq_getElem _ _ (by omega)]
        exact List.getElem_mem _
      have htm12 : tmu = 1 ∨ tmu = 2 := k5 tmu htmu_mem
      have hpicks_eq :
          g.pick_history.map Prod.snd = g.pick_history.dropLast.map Prod.snd ++ [u] := by
        conv_lhs => rw [← hsplit]
        simp
      have hu_not_in_p2 : u ∉ g.pick_history.dropLast.map Prod.snd := by
        have hnd0 : (g.pick_history.dropLast.map Prod.snd ++ [u]).Nodup := by
          rw [← hpicks_eq]
          exact hpA.of_append_left
        exact fun hmem => (List.nodup_append.1 hnd0).2.2 hmem (by simp)
      refine ⟨?_, ?_, ?_, ?_, ?_, ?_, ?_, ?_⟩
      · simp only [teamSet_team_captains]
        exact k1
      · simp only [teamSet_pick_history]
        rw [if_pos hturnpos, List.length_dropLast]
        omega
      · simp only [teamSet_pick_order, List.length_dropLast]
        omega
      · intro i hi
        simp only [teamSet_pick_order]
        simp only [List.length_dropLast] at hi
        have hi2 : i < g.pick_history.length := by omega
        have h10 : g.pick_history.dropLast.getD i (0, 0) = g.pick_history.getD i (0, 0) := by
          rw [List.getD_eq_getElem _ _ (by rw [List.length_dropLast]; omega),
            List.getD_eq_getElem _ _ hi2]
          simp [List.getElem_dropLast]
        rw [h10]
        exact k4 i hi2
      · simp only [teamSet_pick_order]
        exact k5
      · rcases htm12 with rfl | rfl
        · have hfilter1 : g.pick_history.filter (fun q => q.1 == 1) =
              g.pick_history.dropLast.filter (fun q => q.1 == 1) ++ [(1, u)] := by
            conv_lhs => rw [← hsplit]
            simp
          have hcap0mem : g.team_captains.getD 0 0 ∈ g.team_captains := by
            rw [List.getD_eq_getElem _ _ (by omega)]
            exact List.getElem_mem _
          have hqcap : u ≠ g.team_captains.getD 0 0 := by
            intro hEq
            exact (List.nodup_append.1 hcp).2.2 hcap0mem (hEq ▸ hu_mem_picks)
          have huw : u ∉ (g.pick_history.dropLast.filter
              (fun q => q.1 == 1)).map Prod.snd := by
            intro hmem
            apply hu_not_in_p2
            simp only [List.mem_map] at hmem ⊢
            obtain ⟨q, hq1, hq2⟩ := hmem
            exact ⟨q, List.mem_of_mem_filter hq1, hq2⟩
          show (g.team1).erase u = g.team_captains.getD 0 0 ::
              (g.pick_history.dropLast.filter (fun q => q.1 == 1)).map Prod.snd
          rw [k6, hfilter1, List.map_append]
          exact erase_cons_append_self _ _ _ hqcap huw
        · have hfilter1 : g.pick_history.filter (fun q => q.1 == 1) =
              g.pick_history.dropLast.filter (fun q => q.1 == 1) := by
            conv_lhs => rw [← hsplit]
            simp
          show g.team1 = g.team_captains.getD 0 0 ::
              (g.pick_history.dropLast.filter (fun q => q.1 == 1)).map Prod.snd
          rw [k6, hfilter1]
      · rcases htm12 with rfl | rfl
        · have hfilter2 : g.pick_history.filter (fun q => q.1 == 2) =
              g.pick_history.dropLast.filter (fun q => q.1 == 2) := by
            conv_lhs => rw [← hsplit]
            simp
          show g.team2 = g.team_captains.getD 1 0 ::
              (g.pick_history.dropLast.filter (fun q => q.1 == 2)).map Prod.snd
          rw [k7, hfilter2]
        · have hfilter2 : g.pick_history.filter (fun q => q.1 == 2) =
              g.pick_history.dropLast.filter (fun q => q.1 == 2) ++ [(2, u)] := by
            conv_lhs => rw [← hsplit]
            simp
          have hcap1mem : g.team_captains.getD 1 0 ∈ g.team_captains := by
            rw [List.getD_eq_getElem _ _ (by omega)]
            exact List.getElem_mem _
          have hqcap : u ≠ g.team_captains.getD 1 0 := by
            intro hEq
            exact (List.nodup_append.1 hcp).2.2 hcap1mem (hEq ▸ hu_mem_picks)
          have huw : u ∉ (g.pick_history.dropLast.filter
              (fun q => q.1 == 2)).map Prod.snd := by
            intro hmem
            apply hu_not_in_p2
            simp only [List.mem_map] at hmem ⊢
            obtain ⟨q, hq1, hq2⟩ := hmem
            exact ⟨q, List.mem_of_mem_filter hq1, hq2⟩
          show (g.team2).erase u = g.team_captains.getD 1 0 ::
              (g.pick_history.dropLast.filter (fun q => q.1 == 2)).map Prod.snd
          rw [k7, hfilter2, List.map_append]
          exact erase_cons_append_self _ _ _ hqcap huw
      · simp only [teamSet_team_captains]
        rw [if_neg huA]
        have k8b := k8
        rw [hpicks_eq] at k8b
        exact nodup_shuffle_undo _ _ _ _ k8b

theorem teamSet_finished (g : Game) (t : Nat) (l : List Nat) :
    (teamSet g t l).finished = g.finished := by
  unfold teamSet
  split_ifs <;> rfl

theorem dInv_reach (s : Game × List Nat) (h : DReach s) : DInv s := by
  induction h with
  | start g pool first hc hnd h1 h2 hpo hturn hhist =>
      exact dInv_start g pool first hc hnd h1 h2 hpo hturn hhist
  | pick s s2 actor target hr heq ih =>
      obtain ⟨g, A⟩ := s
      exact dInv_pick g A actor target s2 ih heq
  | undo s s2 hr heq ih =>
      obtain ⟨g, A⟩ := s
      exact dInv_undo g A s2 ih heq

/-- Claim C6: in any reachable drafting state with a non-empty pick
history, undoing the last pick and then immediately re-picking the
same target with the same captain reproduces the prior state exactly
— the same team lists, the same pool contents and order, the same
pick history, and the same turn index. -/
theorem C6_undo_pick_round_trip (g : Game) (A : List Nat) (tmu u : Nat)
    (hr : DReach (g, A)) (hl : g.pick_history.getLast? = some (tmu, u)) :
    (undoA (g, A)).bind
        (fun s => pickA s (g.team_captains.getD (tmu - 1) 0) u)
      = Except.ok (g, A) := by
  obtain ⟨k1, k2, k3, k4, k5, k6, k7, k8⟩ := dInv_reach _ hr
  dsimp only at k1 k2 k3 k4 k5 k6 k7 k8
  have hne : g.pick_history ≠ [] := by
    intro h0
    rw [h0] at hl
    simp at hl
  have hlenpos : 0 < g.pick_history.length := List.length_pos.2 hne
  have hsplit : g.pick_history.dropLast ++ [(tmu, u)] = g.pick_history :=
    List.dropLast_append_getLast? _ (by rw [Option.mem_def, hl])
  have hu_mem_picks : u ∈ g.pick_history.map Prod.snd := by
    rw [← hsplit]
    simp
  have hcpA : (g.team_captains ++ (g.pick_history.map Prod.snd ++ A)).Nodup := by
    have tmp := k8
    rw [List.append_assoc] at tmp
    exact tmp
  have hpA : (g.pick_history.map Prod.snd ++ A).Nodup := hcpA.of_append_right
  have hcp : (g.team_captains ++ g.pick_history.map Prod.snd).Nodup := k8.of_append_left
  have huA : u ∉ A := fun hA => (List.nodup_append.1 hpA).2.2 hu_mem_picks hA
  have hturnpos : 0 < g.draft_turn := by rw [k2]; exact hlenpos
  have h8 : g.pick_history.getD (g.pick_history.length - 1) (0, 0) = (tmu, u) := by
    have t0 := getD_concat_self g.pick_history.dropLast (tmu, u) (0, 0)
    rw [hsplit] at t0
    rw [List.length_dropLast] at t0
    exact t0
  have h7 := k4 (g.pick_history.length - 1) (by omega)
  rw [h8] at h7
  dsimp only at h7
  have htmu_mem : tmu ∈ g.pick_order := by
    rw [h7, List.getD_eq_getElem _ _ (by omega)]
    exact List.getElem_mem _
  have htm12 : tmu = 1 ∨ tmu = 2 := k5 tmu htmu_mem
  have hpicks_eq :
      g.pick_history.map Prod.snd = g.pick_history.dropLast.map Prod.snd ++ [u] := by
    conv_lhs => rw [← hsplit]
    simp
  have hu_not_in_p2 : u ∉ g.pick_history.dropLast.map Prod.snd := by
    have hnd0 : (g.pick_history.dropLast.map Prod.snd ++ [u]).Nodup := by
      rw [← hpicks_eq]
      exact hpA.of_append_left
    exact fun hmem => (List.nodup_append.1 hnd0).2.2 hmem (by simp)
  -- evaluate the undo
  have hundo0 : undoA (g, A) = Except.ok
      ({ teamSet g tmu ((teamGet g tmu).erase u) with
         pick_history := g.pick_history.dropLast,
         draft_turn := if 0 < g.draft_turn then g.draft_turn - 1 else g.draft_turn },
       if u ∈ A then A else A ++ [u]) := by
    simp only [undoA]
    rw [hl]
  rw [if_pos hturnpos, if_neg huA] at hundo0
  rw [hundo0]
  show pickA
      ({ teamSet g tmu ((teamGet g tmu).erase u) with
         pick_history := g.pick_history.dropLast,
         draft_turn := g.draft_turn - 1 }, A ++ [u])
      (g.team_captains.getD (tmu - 1) 0) u = Except.ok (g, A)
  simp only [pickA, teamSet_pick_order, teamSet_team_captains, teamSet_pick_history]
  have hg1 : ¬((A ++ [u]).isEmpty = true ∨ g.pick_order.length ≤ g.draft_turn - 1) := by
    push_neg
    constructor
    · simp
    · omega
  rw [if_neg hg1]
  have htv : g.pick_order.getD (g.draft_turn - 1) 0 = tmu := by
    rw [k2]
    exact h7.symm
  rw [htv]
  rw [if_neg (not_not_intro rfl), if_neg (not_not_intro (by simp : u ∈ A ++ [u]))]
  have hE : (A ++ [u]).erase u = A := by
    rw [List.erase_append_right _ huA, List.erase_cons_head]
    simp
  rw [hE]
  refine congrArg Except.ok (Prod.ext ?_ ?_)
  · dsimp only
    refine Game.ext ?_ ?_ ?_ ?_ ?_ ?_ ?_ ?_ ?_ ?_
    · simp only [teamSet_slots]
    · simp only [teamSet_user_to_slot]
    · simp only [teamSet_waitlist]
    · simp only [teamSet_team_captains]
    · rcases htm12 with rfl | rfl
      · have hfilter1 : g.pick_history.filter (fun q => q.1 == 1) =
            g.pick_history.dropLast.filter (fun q => q.1 == 1) ++ [(1, u)] := by
          conv_lhs => rw [← hsplit]
          simp
        have hcap0mem : g.team_captains.getD 0 0 ∈ g.team_captains := by
          rw [List.getD_eq_getElem _ _ (by omega)]
          exact List.getElem_mem _
        have hqcap : u ≠ g.team_captains.getD 0 0 := by
          intro hEq
          exact (List.nodup_append.1 hcp).2.2 hcap0mem (hEq ▸ hu_mem_picks)
        have huw : u ∉ (g.pick_history.dropLast.filter
            (fun q => q.1 == 1)).map Prod.snd := by
          intro hmem
          apply hu_not_in_p2
          simp only [List.mem_map] at hmem ⊢
          obtain ⟨q, hq1, hq2⟩ := hmem
          exact ⟨q, List.mem_of_mem_filter hq1, hq2⟩
        have herase : (g.team1).erase u = g.team_captains.getD 0 0 ::
            (g.pick_history.dropLast.filter (fun q => q.1 == 1)).map Prod.snd := by
          rw [k6, hfilter1, List.map_append]
          exact erase_cons_append_self _ _ _ hqcap huw
        show ((teamGet (teamSet g 1 ((teamGet g 1).erase u)) 1) ++ [u]) = g.team1
        rw [teamGet_teamSet_same _ _ _ (Or.inl rfl)]
        show (g.team1).erase u ++ [u] = g.team1
        rw [herase, k6, hfilter1, List.map_append]
        simp
      · show g.team1 = g.team1
        rfl
    · rcases htm12 with rfl | rfl
      · show g.team2 = g.team2
        rfl
      · have hfilter2 : g.pick_history.filter (fun q => q.1 == 2) =
            g.pick_history.dropLast.filter (fun q => q.1 == 2) ++ [(2, u)] := by
          conv_lhs => rw [← hsplit]
          simp
        have hcap1mem : g.team_captains.getD 1 0 ∈ g.team_captains := by
          rw [List.getD_eq_getElem _ _ (by omega)]
          exact List.getElem_mem _
        have hqcap : u ≠ g.team_captains.getD 1 0 := by
          intro hEq
          exact (List.nodup_append.1 hcp).2.2 hcap1mem (hEq ▸ hu_mem_picks)
        have huw : u ∉ (g.pick_history.dropLast.filter
            (fun q => q.1 == 2)).map Prod.snd := by
          intro hmem
          apply hu_not_in_p2
          simp only [List.mem_map] at hmem ⊢
          obtain ⟨q, hq1, hq2⟩ := hmem
          exact ⟨q, List.mem_of_mem_filter hq1, hq2⟩
        have herase : (g.team2).erase u = g.team_captains.getD 1 0 ::
            (g.pick_history.dropLast.filter (fun q => q.1 == 2)).map Prod.snd := by
          rw [k7, hfilter2, List.map_append]
          exact erase_cons_append_self _ _ _ hqcap huw
        show ((teamGet (teamSet g 2 ((teamGet g 2).erase u)) 2) ++ [u]) = g.team2
        rw [teamGet_teamSet_same _ _ _ (Or.inr rfl)]
        show (g.team2).erase u ++ [u] = g.team2
        rw [herase, k7, hfilter2, List.map_append]
        simp
    · simp only [teamSet_pick_order]
    · show g.draft_turn - 1 + 1 = g.draft_turn
      omega
    · show g.pick_history.dropLast ++ [(tmu, u)] = g.pick_history
      exact hsplit
    · simp only [teamSet_finished]
  · dsimp only

/-- Draft-start state of the C6 witness: captains 1 and 2 seeded, team
1 picks first, pool `[3, 4]`. -/
def gW0 : Game :=
  { initGame with
      team_captains := [1, 2]
      team1 := [1]
      team2 := [2]
      pick_order := [1, 2, 2, 1, 1, 2, 2, 1] }

/-- State of the C6 witness after captain 1 picks user 3. -/
def gW1 : Game :=
  { initGame with
      team_captains := [1, 2]
      team1 := [1, 3]
      team2 := [2]
      pick_order := [1, 2, 2, 1, 1, 2, 2, 1]
      draft_turn := 1
      pick_history := [(1, 3)] }

/-- Witness for C6: after captain 1 picks user 3 from the pool
`[3, 4]`, undoing and re-picking user 3 restores the state exactly. -/
theorem C6_undo_pick_round_trip_witness :
    (undoA (gW1, [4])).bind
        (fun s => pickA s (gW1.team_captains.getD (1 - 1) 0) 3)
      = Except.ok (gW1, [4]) :=
  C6_undo_pick_round_trip gW1 [4] 1 3
    (DReach.pick (gW0, [3, 4]) (gW1, [4]) 1 3
      (DReach.start gW0 [3, 4] 1 (by decide) (by decide) rfl rfl (by decide) rfl rfl) rfl)
    rfl
